import Mathlib

/-!
Shallow embedding of `src/tools/get_features.py` (repository Leighannaz/scope).

The program has two components:

* `get_features` (lines 182-268): pages over a list of source identifiers,
  queries a remote catalog service once per page, assembles per-page tabular
  responses into one table (`df`) and vertically stacks a per-page auxiliary
  "dmdt" array.
* `get_features_loop` (lines 86-179): splits the identifier list into chunks
  of `max_sources`, calls the fetch function once per chunk and writes each
  chunk's table to its own parquet segment file, with a resume check that
  reads back the `_id` column of already-written segments.

Modelling conventions:

* A table row is modelled by its `_id` value together with the shape of its
  `dmdt` entry (`none` when the record has no well-formed dmdt matrix);
  feature columns other than `_id` and `dmdt` play no role in any claim.
* numpy arrays are modelled by their shape (a `List Nat`): the only numpy
  operations the code performs on the dmdt data are `np.array`/`expand_dims`
  (shape `(n, h, w, 1)` per page) and `np.vstack`, whose success and result
  depend only on shapes.
* Python exceptions are modelled with `Except`: a raised exception aborts the
  in-memory computation.  In the loop, files already written survive a raised
  exception, so the loop model threads the file-system state and the write
  log outside of the `Except`.
* The remote service (`kowalski_instances.query`) is an external collaborator
  and is passed in as a function `remote` from the queried identifier page to
  the list of per-instance responses; the fetch function handed to the loop
  (parameter `func` of `get_features_loop`) is likewise a parameter, exactly
  as in the source.
* `df_temp.astype(dtype=dtypes)` (line 229) only casts column dtypes and is
  the identity on the row/shape abstraction, so it is not modelled;
  `impute_features` (line 254) fills missing feature values and preserves the
  row count; the `df.attrs` metadata (lines 257-262), all `print` calls and
  the optional CSV duplicate (line 177) do not affect any claim and are not
  modelled.  The `projection` argument only selects which of these unmodelled
  steps run, so it is dropped from the model's signatures.
-/

namespace Scope

/-- A row of the feature table.  `sid` models the `_id` column; `dmdt` models
the record's dmdt field, abstracted to the shape `(h, w)` of its matrix, or
`none` when the field is absent or malformed (so that stacking it raises). -/
structure Row where
  sid : Nat
  dmdt : Option (Nat × Nat)
deriving Repr, DecidableEq

/-- The Python exceptions the modelled code can raise. -/
inductive PyErr where
  /-- `ValueError` (raised explicitly at line 225, and by numpy for
  mismatched `vstack` shapes at line 251). -/
  | valueError
  /-- Reading a local variable that was never assigned
  (`source_data` at line 227, `df` at line 179). -/
  | unboundLocalError
  /-- `n_sources % max_sources` with `max_sources == 0` (line 151). -/
  | zeroDivisionError
deriving Repr, DecidableEq

/-- One per-instance entry of the dict returned by
`kowalski_instances.query` (line 216).  `nonempty` models the
`len(responses[name]) > 0` guard (line 219); `status` models
`response.get("status", "error")` (a missing status is the default string);
`data` models `response.get("data")`. -/
structure KResponse where
  nonempty : Bool
  status : String
  data : Option (List Row)
deriving Repr, DecidableEq

/-- Lines 218-225: the `for name in responses.keys()` loop.  `sourceData`
carries the Python local `source_data`, which is unbound (`none`) until some
successful response assigns it — and, crucially, *keeps its previous page's
value* when no response on the current page has a `"success"` status.
Raises `ValueError` when a successful response carries no data. -/
def processResponses : List KResponse → Option (List Row) → Except PyErr (Option (List Row))
  | [], sourceData => Except.ok sourceData
  | r :: rest, sourceData =>
    if r.nonempty && r.status == "success" then
      match r.data with
      | none => Except.error PyErr.valueError
      | some d => processResponses rest (some d)
    else processResponses rest sourceData

/-- Lines 231-234: `np.expand_dims(np.array([d for d in df_temp['dmdt'].values]), axis=-1)`.
Returns the resulting shape `[n, h, w, 1]`, or `none` when the expression
raises (empty frame: no `dmdt` column, hence `KeyError`; missing or ragged
dmdt entries: numpy refuses the ragged stack); the exception is caught at
line 235. -/
def extractDmdt : List Row → Option (List Nat)
  | [] => none
  | r :: rest =>
    match r.dmdt with
    | none => none
    | some (h, w) =>
      if rest.all (fun r2 => r2.dmdt == some (h, w)) then
        some [rest.length + 1, h, w, 1]
      else none

/-- `np.atleast_2d` on a shape: a 1-D array of length `n` becomes `(1, n)`;
arrays of dimension ≥ 2 are unchanged (the 0-d case is unreachable here). -/
def atleast2d : List Nat → List Nat
  | [] => [1, 1]
  | [n] => [1, n]
  | s => s

/-- `np.vstack` (line 251) on a list of array shapes: every element is passed
through `atleast_2d`, all trailing dimensions must agree, and the leading
dimensions are summed; otherwise numpy raises `ValueError`.  The Python list
`[]` that initialises `dmdt_temp` enters here as `np.array([])`, shape `[0]`. -/
def vstack (shapes : List (List Nat)) : Except PyErr (List Nat) :=
  match shapes.map atleast2d with
  | [] => Except.error PyErr.valueError
  | s :: rest =>
    if rest.all (fun t => t.drop 1 == s.drop 1) then
      Except.ok ((s.headD 0 + (rest.map (fun t => t.headD 0)).sum) :: s.drop 1)
    else Except.error PyErr.valueError

/-- The in-memory state threaded through the `while True` loop of
`get_features` (lines 196-199 initialise it). -/
structure FetchState where
  /-- Python local `source_data`: `none` models "never assigned". -/
  sourceData : Option (List Row)
  /-- Python local `dmdt_temp`, initially the empty list (shape `[0]`);
  note it is *not* reset between pages. -/
  dmdtTemp : List Nat
  /-- `df_collection`. -/
  dfColl : List (List Row)
  /-- `dmdt_collection`. -/
  dmdtColl : List (List Nat)
deriving Repr, DecidableEq

/-- Lines 196-199: `id = 0; df_collection = []; dmdt_temp = []; dmdt_collection = []`. -/
def initFetchState : FetchState := ⟨none, [0], [], []⟩

/-- One iteration of the `while True` body (lines 201-240) applied to the
page slice `s = source_ids[id*limit : (id+1)*limit]`:
query the remote, build `df_temp` from `source_data` (raising
`UnboundLocalError` when `source_data` was never assigned), append it to
`df_collection`, and try the dmdt extraction — on failure the exception is
caught (lines 235-239 only print) and `dmdt_temp` keeps its previous value,
which is what gets appended to `dmdt_collection` (line 240). -/
def fetchPage (remote : List Nat → List KResponse) (s : List Nat) (st : FetchState) :
    Except PyErr FetchState :=
  match processResponses (remote s) st.sourceData with
  | Except.error e => Except.error e
  | Except.ok none => Except.error PyErr.unboundLocalError
  | Except.ok (some rows) =>
    let dmdtTemp :=
      match extractDmdt rows with
      | some shape => shape
      | none => st.dmdtTemp
    Except.ok ⟨some rows, dmdtTemp, st.dfColl ++ [rows], st.dmdtColl ++ [dmdtTemp]⟩

/-- The `while True` loop run over the successive page slices. -/
def fetchGo (remote : List Nat → List KResponse) : List (List Nat) → FetchState →
    Except PyErr FetchState
  | [], st => Except.ok st
  | s :: ss, st =>
    match fetchPage remote s st with
    | Except.error e => Except.error e
    | Except.ok st' => fetchGo remote ss st'

/-- The number of pages the `while True` loop visits: it processes pages
`id = 0, 1, ...` and breaks after the first page with
`(id + 1) * limit_per_query >= len(source_ids)` (line 242).  For
`limit_per_query ≥ 1` that is `max 1 ⌈N / limit⌉` pages (the first page is
always processed, even when the identifier list is empty).  For
`limit_per_query = 0` and a non-empty list the source loop never terminates;
no claim concerns that case. -/
def numPages (N limit : Nat) : Nat := max 1 ((N + limit - 1) / limit)

/-- The successive page slices `source_ids[id*limit : (id+1)*limit]`
(lines 208-210) visited by the `while True` loop of `get_features`. -/
def getFeaturesPages (limit : Nat) (source_ids : List Nat) : List (List Nat) :=
  (List.range (numPages source_ids.length limit)).map
    (fun i => (source_ids.drop (i * limit)).take limit)

/-- `get_features` (lines 182-268): page over the identifiers, then
`df = pd.concat(df_collection)` (order-preserving concatenation, line 249)
and `dmdt = np.vstack(dmdt_collection)` (line 251).  Returns the final
`(df, dmdt)` pair as (row list, dmdt shape). -/
def get_features (remote : List Nat → List KResponse) (source_ids : List Nat)
    (limit_per_query : Nat) : Except PyErr (List Row × List Nat) :=
  match fetchGo remote (getFeaturesPages limit_per_query source_ids) initFetchState with
  | Except.error e => Except.error e
  | Except.ok st =>
    match vstack st.dmdtColl with
    | Except.error e => Except.error e
    | Except.ok dmdt => Except.ok (st.dfColl.flatten, dmdt)

/-! ## The checkpointed loop (`get_features_loop`, lines 86-179) -/

/-- The output directory's parquet files: one entry per segment, keyed by the
iteration index `i` of the file name `{outfile}_iter_{i}.parquet`, holding
the rows written to it. -/
abbrev FS := List (Nat × List Row)

/-- `str(n).zfill(2)` for the CCD number (line 115). -/
def zfill2 (n : Nat) : String :=
  let s := toString n
  if s.length < 2 then "0" ++ s else s

/-- Lines 109-131: the output path prefix, from the base directory
(`os.path.dirname(__file__)`), the region key and the optional suffix. -/
def mkOutfile (baseDir : String) (whole_field : Bool) (field ccd quad : Nat)
    (suffix : Option String) : String :=
  let core :=
    if !whole_field then
      baseDir ++ "/../features/field_" ++ toString field ++ "/ccd_" ++ zfill2 ccd
        ++ "_quad_" ++ toString quad
    else
      baseDir ++ "/../features/field_" ++ toString field ++ "/field_" ++ toString field
  match suffix with
  | some s => core ++ "_" ++ s
  | none => core

/-- Lines 141-143: read back the `_id` column of every existing segment file
(`existing_ids += batch['_id'].to_pylist()`). -/
def existingIds (fs : FS) : List Nat :=
  (fs.map (fun seg => seg.2.map Row.sid)).flatten

/-- `write_parquet(df, f'{outfile}_iter_{i}.parquet')` (line 174): writing to
an existing segment file replaces its contents, otherwise a new file appears. -/
def fsWrite (fs : FS) (i : Nat) (rows : List Row) : FS :=
  if fs.any (fun seg => seg.1 == i) then
    fs.map (fun seg => if seg.1 == i then (i, rows) else seg)
  else fs ++ [(i, rows)]

/-- Line 152 (and 154): `n_iterations = n_sources // max_sources + 1` when
the remainder is non-zero, else `n_sources // max_sources`. -/
def n_iterations (N C : Nat) : Nat :=
  if N % C ≠ 0 then N / C + 1 else N / C

/-- Lines 159-161: the chunk slice
`source_ids[i*max_sources : min(n_sources, (i+1)*max_sources)]` of
iteration `i`. -/
def loopSlice (source_ids : List Nat) (max_sources i : Nat) : List Nat :=
  (source_ids.drop (i * max_sources)).take max_sources

/-- The family of chunk slices the loop covers on a fresh run (iterations
`0, …, n_iterations - 1`). -/
def loopChunks (max_sources : Nat) (source_ids : List Nat) : List (List Nat) :=
  (List.range (n_iterations source_ids.length max_sources)).map
    (loopSlice source_ids max_sources)

/-- The `for i in range(start_iteration, n_iterations)` body (lines 157-177),
run over the remaining iteration indices.  Threads the directory state `fs`,
the log of `write_parquet` calls performed so far, and the Python local `df`
(`none` while unassigned).  A raise by `func` aborts the loop but the files
already written remain on disk. -/
def loopIters (func : List Nat → Except PyErr (List Row × List Nat)) (save : Bool)
    (source_ids : List Nat) (max_sources : Nat) :
    List Nat → FS → List (Nat × List Row) → Option (List Row) →
    FS × List (Nat × List Row) × Except PyErr (Option (List Row))
  | [], fs, log, df => (fs, log, Except.ok df)
  | i :: rest, fs, log, _df =>
    match func (loopSlice source_ids max_sources i) with
    | Except.error e => (fs, log, Except.error e)
    | Except.ok (d, _dmdt) =>
      let fs' := if save then fsWrite fs i d else fs
      let log' := if save then log ++ [(i, d)] else log
      loopIters func save source_ids max_sources rest fs' log' (some d)

/-- Lines 150-179: compute `n_iterations` (raising `ZeroDivisionError` when
`max_sources == 0`), the approximate `start_iteration =
len(existing_ids) // max_sources`, run the remaining iterations, and
`return df, outfile` — which raises `UnboundLocalError` when the loop body
never ran and `df` was never assigned. -/
inductive LoopRet where
  /-- Line 148: the bare `return` after printing `'Dataset is already complete.'`;
  Python returns `None`. -/
  | complete
  /-- Line 179: `return df, outfile`. -/
  | finished (df : List Row) (outfile : String)
deriving Repr, DecidableEq

/-- The part of `get_features_loop` after the resume check (lines 150-179). -/
def loopMain (func : List Nat → Except PyErr (List Row × List Nat))
    (source_ids : List Nat) (max_sources : Nat) (save : Bool) (outfile : String)
    (existing_count : Nat) (fs : FS) :
    FS × List (Nat × List Row) × Except PyErr LoopRet :=
  if max_sources = 0 then (fs, [], Except.error PyErr.zeroDivisionError)
  else
    let nIter := n_iterations source_ids.length max_sources
    let startIter := existing_count / max_sources
    match loopIters func save source_ids max_sources
        (List.range' startIter (nIter - startIter)) fs [] none with
    | (fs', log, Except.error e) => (fs', log, Except.error e)
    | (fs', log, Except.ok none) => (fs', log, Except.error PyErr.unboundLocalError)
    | (fs', log, Except.ok (some df)) => (fs', log, Except.ok (LoopRet.finished df outfile))

/-- `get_features_loop` (lines 86-179).  `fs` models the parquet files
already present in the output directory (`DS.files`, line 134-136); the
second component of the result is the chronological log of segment writes
this run performed.  Unmodelled arguments: `features_catalog`, `verbose`,
`limit_per_query`, `impute_missing_features`, `self_impute`, `projection`
are closed over by `func`; `write_csv` only duplicates the parquet output as
CSV. -/
def get_features_loop (func : List Nat → Except PyErr (List Row × List Nat))
    (source_ids : List Nat) (whole_field : Bool) (field ccd quad : Nat)
    (max_sources : Nat) (restart : Bool) (suffix : Option String) (save : Bool)
    (baseDir : String) (fs : FS) :
    FS × List (Nat × List Row) × Except PyErr LoopRet :=
  let outfile := mkOutfile baseDir whole_field field ccd quad suffix
  if !restart && !fs.isEmpty then
    let existing_ids := existingIds fs
    if source_ids.all (fun x => existing_ids.contains x) then
      (fs, [], Except.ok LoopRet.complete)
    else
      loopMain func source_ids max_sources save outfile existing_ids.length fs
  else
    loopMain func source_ids max_sources save outfile 0 fs

/-- The `(not restart) & files_exist` branch condition together with the
emptiness of `todo_source_ids` (lines 140-148): exactly when the run takes
the early `'Dataset is already complete.'` return. -/
def resumeComplete (restart : Bool) (fs : FS) (source_ids : List Nat) : Bool :=
  (!restart && !fs.isEmpty) && source_ids.all (fun x => (existingIds fs).contains x)

/-- The slice of the final iteration `n_iterations - 1`. -/
def lastChunk (source_ids : List Nat) (max_sources : Nat) : List Nat :=
  loopSlice source_ids max_sources (n_iterations source_ids.length max_sources - 1)

/-- The shape of a normal return of `get_features_loop`: a bare `return`
(`complete`), or `return df, outfile` where `df` is the table the fetch
function produced for the final chunk. -/
def retShape (func : List Nat → Except PyErr (List Row × List Nat))
    (source_ids : List Nat) (max_sources : Nat) (outfile : String) : LoopRet → Prop
  | LoopRet.complete => True
  | LoopRet.finished df o =>
      o = outfile ∧ Except.map Prod.fst (func (lastChunk source_ids max_sources)) = Except.ok df

/-! ## Test fixtures (specification-side inputs, not source embeddings) -/

/-- A row carrying only an identifier (dmdt absent). -/
def mkRow (i : Nat) : Row := ⟨i, none⟩

/-- A row whose dmdt field is a well-formed `h × w` matrix. -/
def mkGRow (h w i : Nat) : Row := ⟨i, some (h, w)⟩

/-- A remote instance that answers every page with status `"success"` and one
record per requested identifier, each carrying a uniform `h × w` dmdt. -/
def goodRemote (h w : Nat) : List Nat → List KResponse :=
  fun s => [⟨true, "success", some (s.map (mkGRow h w))⟩]

/-- A fetch function that returns one row per requested identifier (the
nominal behaviour of `get_features` when the catalog holds every id). -/
def idealFunc : List Nat → Except PyErr (List Row × List Nat) :=
  fun s => Except.ok (s.map mkRow, [0])

/-- A fetch function modelling a catalog that is missing identifier `2`:
the `$in` filter simply returns no record for it. -/
def lossyFunc : List Nat → Except PyErr (List Row × List Nat) :=
  fun s => Except.ok ((s.filter (fun i => i ≠ 2)).map mkRow, [0])

/-- A remote whose response for the page `[3]` has a record with a malformed
dmdt field (so that the stacking at lines 231-234 raises), and well-formed
`1 × 1` dmdt records on every other page. -/
def mixedRemote : List Nat → List KResponse :=
  fun s =>
    if s = [3] then [⟨true, "success", some [⟨3, none⟩]⟩]
    else [⟨true, "success", some (s.map (mkGRow 1 1))⟩]

/-- A remote that answers the page `[1]` successfully and reports status
`"error"` (with no data) for every other page. -/
def flakyRemote : List Nat → List KResponse :=
  fun s =>
    if s = [1] then [⟨true, "success", some [mkGRow 1 1 1]⟩]
    else [⟨true, "error", none⟩]


/-! ## Arithmetic facts about `n_iterations` and the slice families -/

lemma n_iterations_eq_ceil (N C : Nat) (hC : 1 ≤ C) :
    n_iterations N C = (N + C - 1) / C := by
  have hqr : C * (N / C) + N % C = N := Nat.div_add_mod N C
  have hr : N % C < C := Nat.mod_lt _ hC
  by_cases h : N % C = 0
  · have h1 : N + C - 1 = C * (N / C) + (C - 1) := by omega
    rw [n_iterations, if_neg (by omega), h1, Nat.mul_add_div hC,
      Nat.div_eq_of_lt (show C - 1 < C by omega), Nat.add_zero]
  · have hm : C * (N / C + 1) = C * (N / C) + C := by ring
    have h1 : N + C - 1 = C * (N / C + 1) + (N % C - 1) := by omega
    rw [n_iterations, if_pos h, h1, Nat.mul_add_div hC,
      Nat.div_eq_of_lt (show N % C - 1 < C by omega), Nat.add_zero]

lemma le_n_iterations_mul (N C : Nat) (hC : 1 ≤ C) :
    N ≤ n_iterations N C * C := by
  have hqr : C * (N / C) + N % C = N := Nat.div_add_mod N C
  have hr : N % C < C := Nat.mod_lt _ hC
  by_cases h : N % C = 0
  · rw [n_iterations, if_neg (by omega)]
    have h2 : N / C * C = C * (N / C) := Nat.mul_comm _ _
    omega
  · rw [n_iterations, if_pos h]
    have h2 : (N / C + 1) * C = C * (N / C) + C := by ring
    omega

lemma n_iterations_pos (N C : Nat) (hN : 0 < N) (_hC : 1 ≤ C) :
    0 < n_iterations N C := by
  have hqr : C * (N / C) + N % C = N := Nat.div_add_mod N C
  by_cases h : N % C = 0
  · rw [n_iterations, if_neg (by omega)]
    rcases Nat.eq_zero_or_pos (N / C) with h0 | h0
    · exfalso; rw [h0, Nat.mul_zero] at hqr; omega
    · exact h0
  · rw [n_iterations, if_pos h]; exact Nat.succ_pos _

lemma pred_n_iterations_mul_lt (N C : Nat) (hC : 1 ≤ C)
    (hpos : 0 < n_iterations N C) : (n_iterations N C - 1) * C < N := by
  have hqr : C * (N / C) + N % C = N := Nat.div_add_mod N C
  have hr : N % C < C := Nat.mod_lt _ hC
  by_cases h : N % C = 0
  · rw [n_iterations, if_neg (by omega)] at hpos ⊢
    have h2 : (N / C - 1) * C = N / C * C - 1 * C := Nat.sub_mul _ _ _
    have h3 : N / C * C = C * (N / C) := Nat.mul_comm _ _
    have h4 : 1 * C ≤ N / C * C := Nat.mul_le_mul_right _ hpos
    omega
  · rw [n_iterations, if_pos h] at hpos ⊢
    have h2 : (N / C + 1 - 1) * C = C * (N / C) := by
      rw [Nat.add_sub_cancel, Nat.mul_comm]
    rw [h2]
    omega

/-- Concatenating the consecutive slices `[i*C, (i+1)*C)` for `i < K`
recovers the first `K*C` elements of the list. -/
lemma flatten_slices (ids : List Nat) (C : Nat) :
    ∀ K, ((List.range K).map (fun i => (ids.drop (i * C)).take C)).flatten
      = ids.take (K * C) := by
  intro K
  induction K with
  | zero => simp
  | succ K ih =>
    rw [List.range_succ, List.map_append, List.flatten_append, ih]
    simp only [List.map_cons, List.map_nil, List.flatten_cons, List.flatten_nil,
      List.append_nil]
    rw [Nat.succ_mul, List.take_add]

lemma getFeaturesPages_flatten (limit : Nat) (ids : List Nat) (hL : 1 ≤ limit) :
    (getFeaturesPages limit ids).flatten = ids := by
  rw [getFeaturesPages, flatten_slices]
  apply List.take_of_length_le
  have h1 : ids.length ≤ n_iterations ids.length limit * limit :=
    le_n_iterations_mul _ _ hL
  have h2 : n_iterations ids.length limit ≤ numPages ids.length limit := by
    rw [numPages, n_iterations_eq_ceil _ _ hL]; exact le_max_right _ _
  calc ids.length ≤ n_iterations ids.length limit * limit := h1
    _ ≤ numPages ids.length limit * limit := Nat.mul_le_mul_right _ h2

lemma loopSlice_length (ids : List Nat) (C i : Nat) :
    (loopSlice ids C i).length = min C (ids.length - i * C) := by
  simp [loopSlice]

lemma loopSlice_full (ids : List Nat) (C i : Nat) (hC : 1 ≤ C)
    (h : i + 1 < n_iterations ids.length C) : (loopSlice ids C i).length = C := by
  rw [loopSlice_length]
  have h1 : (i + 1) * C ≤ (n_iterations ids.length C - 1) * C :=
    Nat.mul_le_mul_right _ (by omega)
  have h2 : (n_iterations ids.length C - 1) * C < ids.length :=
    pred_n_iterations_mul_lt _ _ hC (by omega)
  have h3 : (i + 1) * C = i * C + C := Nat.succ_mul i C
  omega

lemma loopSlice_last_length (ids : List Nat) (C : Nat) (hC : 1 ≤ C)
    (hpos : 0 < n_iterations ids.length C) :
    (loopSlice ids C (n_iterations ids.length C - 1)).length
      = ids.length - (n_iterations ids.length C - 1) * C := by
  rw [loopSlice_length]
  have h1 : ids.length ≤ n_iterations ids.length C * C := le_n_iterations_mul _ _ hC
  have h2 : (n_iterations ids.length C - 1) * C
      = n_iterations ids.length C * C - 1 * C := Nat.sub_mul _ _ _
  have h4 : 1 * C ≤ n_iterations ids.length C * C := Nat.mul_le_mul_right _ hpos
  omega

/-! ## Page partitioning (claim C3) and chunk counts (claim C4) -/

/-- C3: for every page size `limit_per_query ≥ 1` and every identifier list,
the paging loop in `get_features` partitions the list into consecutive
pages: concatenating the pages in order recovers the identifier list
exactly (so every identifier position is covered by exactly one page and no
two pages overlap), and the page lengths sum to the list's length. -/
theorem c3_pages_partition (limit : Nat) (source_ids : List Nat) (hL : 1 ≤ limit) :
    (getFeaturesPages limit source_ids).flatten = source_ids
    ∧ ((getFeaturesPages limit source_ids).map List.length).sum = source_ids.length := by
  have h := getFeaturesPages_flatten limit source_ids hL
  exact ⟨h, by rw [← List.length_flatten, h]⟩

/-- Witness for C3 at `limit_per_query = 2`, identifiers `[1,2,3,4,5]`. -/
theorem c3_pages_partition_witness :
    (getFeaturesPages 2 [1, 2, 3, 4, 5]).flatten = [1, 2, 3, 4, 5]
    ∧ ((getFeaturesPages 2 [1, 2, 3, 4, 5]).map List.length).sum = 5 :=
  c3_pages_partition 2 [1, 2, 3, 4, 5] (by decide)

/-- C4: for every chunk size `max_sources ≥ 1`, `get_features_loop` splits
the identifier list into exactly `⌈N / max_sources⌉` chunks; every chunk
before the last has exactly `max_sources` identifiers and the last chunk
holds the remainder.  Concretely, identifiers `[1,2,3,4,5]` with chunk size
2 produce exactly 3 written segments with identifier counts `[2,2,1]`. -/
theorem c4_chunk_counts (C : Nat) (ids : List Nat) (hC : 1 ≤ C) :
    (loopChunks C ids).length = (ids.length + C - 1) / C
    ∧ ((loopChunks C ids).map List.length).take (n_iterations ids.length C - 1)
        = List.replicate (n_iterations ids.length C - 1) C
    ∧ (loopChunks C ids).getLast?.map List.length
        = (if ids.length = 0 then none
           else some (ids.length - (n_iterations ids.length C - 1) * C))
    ∧ (get_features_loop idealFunc [1, 2, 3, 4, 5] true 291 1 1 2 true none true "b" []).2.1.map
        (fun e => e.2.length) = [2, 2, 1] := by
  refine ⟨?_, ?_, ?_, rfl⟩
  · rw [loopChunks]
    simp only [List.length_map, List.length_range]
    exact n_iterations_eq_ceil _ _ hC
  · rw [loopChunks, List.map_map, ← List.map_take, List.take_range]
    have hmin : (n_iterations ids.length C - 1) ⊓ n_iterations ids.length C
        = n_iterations ids.length C - 1 := by omega
    rw [hmin, List.eq_replicate_iff]
    refine ⟨by simp, ?_⟩
    intro b hb
    rcases List.mem_map.1 hb with ⟨i, hi, rfl⟩
    rw [List.mem_range] at hi
    exact loopSlice_full ids C i hC (by omega)
  · by_cases hN : ids.length = 0
    · rw [if_pos hN]
      have h0 : n_iterations ids.length C = 0 := by
        rw [hN]; simp [n_iterations]
      rw [loopChunks, h0]
      rfl
    · rw [if_neg hN]
      have hpos : 0 < n_iterations ids.length C :=
        n_iterations_pos _ _ (by omega) hC
      obtain ⟨K, hK⟩ : ∃ K, n_iterations ids.length C = K + 1 :=
        ⟨n_iterations ids.length C - 1, by omega⟩
      rw [loopChunks, hK, List.range_succ, List.map_append, List.map_cons,
        List.map_nil, List.getLast?_concat, Option.map_some']
      have hlast := loopSlice_last_length ids C hC hpos
      rw [hK] at hlast
      simp only [Nat.add_sub_cancel] at hlast
      rw [hlast]
      simp only [Nat.add_sub_cancel]

/-- Witness for C4 at chunk size 2, identifiers `[1,2,3,4,5]`. -/
theorem c4_chunk_counts_witness :
    (loopChunks 2 [1, 2, 3, 4, 5]).length = (5 + 2 - 1) / 2
    ∧ ((loopChunks 2 [1, 2, 3, 4, 5]).map List.length).take (n_iterations 5 2 - 1)
        = List.replicate (n_iterations 5 2 - 1) 2
    ∧ (loopChunks 2 [1, 2, 3, 4, 5]).getLast?.map List.length
        = (if (5 : Nat) = 0 then none else some (5 - (n_iterations 5 2 - 1) * 2))
    ∧ (get_features_loop idealFunc [1, 2, 3, 4, 5] true 291 1 1 2 true none true "b" []).2.1.map
        (fun e => e.2.length) = [2, 2, 1] :=
  c4_chunk_counts 2 [1, 2, 3, 4, 5] (by decide)

/-! ## Behaviour of the checkpoint loop on fresh and resumed runs -/

lemma fsWrite_fresh (fs : FS) (i : Nat) (rows : List Row)
    (h : ∀ p ∈ fs, p.1 < i) : fsWrite fs i rows = fs ++ [(i, rows)] := by
  rw [fsWrite, if_neg]
  simp only [List.any_eq_true, beq_iff_eq, not_exists, not_and]
  intro p hp
  exact Nat.ne_of_lt (h p hp)

/-- An ideal fresh run of the iteration loop over the index range
`[a, a+n)` against a directory whose segments all have indices below `a`:
it appends one segment per index and ends with `df` holding the final
chunk's rows. -/
lemma loopIters_ideal_fresh (ids : List Nat) (C : Nat) :
    ∀ (n a : Nat) (fs : FS) (log : List (Nat × List Row)) (df : Option (List Row)),
      (∀ p ∈ fs, p.1 < a) →
      loopIters idealFunc true ids C (List.range' a n) fs log df =
        (fs ++ (List.range' a n).map (fun i => (i, (loopSlice ids C i).map mkRow)),
         log ++ (List.range' a n).map (fun i => (i, (loopSlice ids C i).map mkRow)),
         Except.ok (if n = 0 then df
           else some ((loopSlice ids C (a + n - 1)).map mkRow))) := by
  intro n
  induction n with
  | zero =>
    intro a fs log df _h
    simp [loopIters]
  | succ n ih =>
    intro a fs log df hfresh
    rw [List.range'_succ]
    simp only [loopIters, idealFunc, if_true]
    rw [fsWrite_fresh fs a _ hfresh]
    rw [ih (a + 1) (fs ++ [(a, (loopSlice ids C a).map mkRow)]) _ _ ?fresh]
    case fresh =>
      intro p hp
      rcases List.mem_append.1 hp with h1 | h1
      · exact Nat.lt_succ_of_lt (hfresh p h1)
      · simp only [List.mem_singleton] at h1
        rw [h1]
        exact Nat.lt_succ_self a
    rcases n with _ | m
    · simp [List.append_assoc]
    · simp only [if_neg (Nat.succ_ne_zero m), if_neg (Nat.succ_ne_zero (m + 1)),
        List.map_cons, List.append_assoc, List.singleton_append]
      have hidx : a + 1 + (m + 1) - 1 = a + (m + 1 + 1) - 1 := by omega
      rw [hidx]

/-- A fresh (empty-directory) run of `get_features_loop` with the ideal
fetch function and a non-empty identifier list: one segment per chunk is
written, and the run returns the last chunk's table with the outfile. -/
lemma fresh_run_ideal (ids : List Nat) (C : Nat) (restart wf : Bool)
    (f c q : Nat) (suf : Option String) (base : String)
    (hC : 1 ≤ C) (hne : ids ≠ []) :
    get_features_loop idealFunc ids wf f c q C restart suf true base [] =
      ((List.range' 0 (n_iterations ids.length C)).map
          (fun i => (i, (loopSlice ids C i).map mkRow)),
       (List.range' 0 (n_iterations ids.length C)).map
          (fun i => (i, (loopSlice ids C i).map mkRow)),
       Except.ok (LoopRet.finished
         ((loopSlice ids C (n_iterations ids.length C - 1)).map mkRow)
         (mkOutfile base wf f c q suf))) := by
  have hpos : 0 < n_iterations ids.length C :=
    n_iterations_pos ids.length C (List.length_pos.2 hne) hC
  rw [get_features_loop]
  simp only [List.isEmpty_nil, Bool.not_true, Bool.and_false, Bool.false_eq_true,
    if_false]
  rw [loopMain, if_neg (by omega)]
  simp only [Nat.zero_div, Nat.sub_zero]
  rw [loopIters_ideal_fresh ids C (n_iterations ids.length C) 0 [] [] none
    (by intro p hp; cases hp)]
  rw [if_neg (by omega)]
  simp only [List.nil_append, Nat.zero_add]

/-- A resumed run against a directory that already covers every input
identifier takes the early `'Dataset is already complete.'` return: nothing
is written and the directory is untouched. -/
lemma resume_complete_run (func : List Nat → Except PyErr (List Row × List Nat))
    (ids : List Nat) (wf : Bool) (f c q C : Nat) (suf : Option String)
    (save : Bool) (base : String) (fs : FS) (hne : fs ≠ [])
    (hall : ids.all (fun x => (existingIds fs).contains x) = true) :
    get_features_loop func ids wf f c q C false suf save base fs
      = (fs, [], Except.ok LoopRet.complete) := by
  rw [get_features_loop]
  rw [if_pos (by simp [List.isEmpty_eq_false.2 hne])]
  rw [if_pos hall]

lemma all_contains_self (l : List Nat) : l.all (fun x => l.contains x) = true := by
  rw [List.all_eq_true]
  intro x hx
  exact List.elem_iff.2 hx

/-! ## Concrete runs settling the error-handling claims -/

/-- C1: evaluation of `get_features` at the failing input.  Two pages with
`limit_per_query = 1`; the first page succeeds with one record, the second
page's response reports status `"error"`.  The call does *not* raise: the
`if response.get("status", "error") == "success"` guard merely skips the
assignment, `source_data` keeps the first page's records, and the call
returns normally with the first page's row silently duplicated. -/
theorem c1_error_status_not_raised :
    get_features flakyRemote [1, 2] 1
      = Except.ok ([mkGRow 1 1 1, mkGRow 1 1 1], [2, 1, 1, 1]) := rfl

/-- C2 counterexample: identifiers `[1,2,3]` with `limit_per_query = 2`;
the second page `[3]` has valid row data but its dmdt extraction throws.
The run continues and the final table holds all three rows, but the second
page's slot in `dmdt_collection` holds the *first page's* slab
`[2,1,1,1]` (a duplicate), not the empty placeholder (shape `[0]`) the
claim describes. -/
theorem c2_counterexample :
    fetchGo mixedRemote (getFeaturesPages 2 [1, 2, 3]) initFetchState
      = Except.ok ⟨some [⟨3, none⟩], [2, 1, 1, 1],
          [[mkGRow 1 1 1, mkGRow 1 1 2], [⟨3, none⟩]],
          [[2, 1, 1, 1], [2, 1, 1, 1]]⟩
    ∧ ¬([2, 1, 1, 1] = ([0] : List Nat)) := ⟨rfl, by decide⟩

/-- C2 (amended): if the dmdt extraction throws for a page whose row data is
valid, `get_features` continues, keeps the page's rows in full, and records
for that page the `dmdt_temp` value carried over from the most recent
successful extraction (the initial empty placeholder only when no earlier
page's extraction succeeded) — not an empty placeholder in general. -/
theorem c2_dmdt_degraded (remote : List Nat → List KResponse) (s : List Nat)
    (st : FetchState) (rows : List Row)
    (hrows : processResponses (remote s) st.sourceData = Except.ok (some rows))
    (hfail : extractDmdt rows = none) :
    fetchPage remote s st
      = Except.ok ⟨some rows, st.dmdtTemp, st.dfColl ++ [rows],
          st.dmdtColl ++ [st.dmdtTemp]⟩ := by
  simp only [fetchPage, hrows, hfail]

/-- Witness for the amended C2: a one-page run whose extraction fails keeps
the row and records the initial placeholder shape `[0]`. -/
theorem c2_dmdt_degraded_witness :
    fetchPage (fun _ => [⟨true, "success", some [⟨7, none⟩]⟩]) [7] initFetchState
      = Except.ok ⟨some [⟨7, none⟩], [0], [[⟨7, none⟩]], [[0]]⟩ :=
  c2_dmdt_degraded (fun _ => [⟨true, "success", some [⟨7, none⟩]⟩]) [7]
    initFetchState [⟨7, none⟩] rfl rfl

/-- C5 counterexample: `max_sources = 0` is not handled as a single chunk —
`n_sources % max_sources` raises `ZeroDivisionError` before any chunking. -/
theorem c5_counterexample :
    get_features_loop idealFunc [1, 2, 3] true 291 1 1 0 true none true "b" []
      = ([], [], Except.error PyErr.zeroDivisionError) := rfl

/-- C5 (amended): a chunk size strictly larger than the (non-zero) number of
identifiers is handled as a single chunk covering the whole list, without
failing; a chunk size of zero raises `ZeroDivisionError` instead. -/
theorem c5_oversized_chunk (ids : List Nat) (C : Nat) (restart wf : Bool)
    (f c q : Nat) (suf : Option String) (base : String)
    (hne : ids ≠ []) (hC2 : ids.length < C) :
    get_features_loop idealFunc ids wf f c q C restart suf true base []
      = ([(0, ids.map mkRow)], [(0, ids.map mkRow)],
         Except.ok (LoopRet.finished (ids.map mkRow)
           (mkOutfile base wf f c q suf))) := by
  have hN : 0 < ids.length := List.length_pos.2 hne
  have hK : n_iterations ids.length C = 1 := by
    rw [n_iterations, if_pos (by rw [Nat.mod_eq_of_lt hC2]; omega),
      Nat.div_eq_of_lt hC2]
  have hslice : loopSlice ids C 0 = ids := by
    rw [loopSlice, Nat.zero_mul, List.drop_zero]
    exact List.take_of_length_le (Nat.le_of_lt hC2)
  rw [fresh_run_ideal ids C restart wf f c q suf base (by omega) hne, hK]
  simp [List.range'_one, hslice]

/-- Witness for the amended C5: three identifiers, chunk size 5. -/
theorem c5_oversized_chunk_witness :
    get_features_loop idealFunc [1, 2, 3] true 291 1 1 5 true none true "b" []
      = ([(0, [1, 2, 3].map mkRow)], [(0, [1, 2, 3].map mkRow)],
         Except.ok (LoopRet.finished ([1, 2, 3].map mkRow)
           (mkOutfile "b" true 291 1 1 none))) :=
  c5_oversized_chunk [1, 2, 3] 5 true true 291 1 1 none "b" (by decide) (by decide)

/-- C7: evaluation at the failing input.  With an empty identifier list and
`restart = True` (no prior segments), `get_features_loop` does not return an
informational message: `n_iterations` is 0, the loop body never runs, and
`return df, outfile` raises `UnboundLocalError` (`df` was never assigned).
No writes are performed. -/
theorem c7_empty_input_raises :
    get_features_loop idealFunc [] true 291 1 1 5 true none true "b" []
      = ([], [], Except.error PyErr.unboundLocalError) := rfl

/-- C8 counterexample: a successful call whose second page's dmdt extraction
failed returns a 3-row table together with a dmdt array of leading dimension
4 (the first page's 2-row slab stacked twice): the invariant
`table row count = dmdt leading dimension` does not hold for every
successful call. -/
theorem c8_counterexample :
    get_features mixedRemote [1, 2, 3] 2
      = Except.ok ([mkGRow 1 1 1, mkGRow 1 1 2, ⟨3, none⟩], [4, 1, 1, 1])
    ∧ ([mkGRow 1 1 1, mkGRow 1 1 2, ⟨3, none⟩] : List Row).length = 3
    ∧ ([4, 1, 1, 1] : List Nat).headD 0 = 4
    ∧ (3 : Nat) ≠ 4 := ⟨rfl, rfl, rfl, by decide⟩

/-- C9 counterexample: a fetch function that finds no record for identifier
2 (the catalog lacks it).  A completed fresh run over `[1,2,3]` with
`max_sources = 2` writes segments 0 and 1 holding ids `{1}` and `{3}`.
Rerunning with resume (`restart = False`): 2 identifiers are on disk, so
`start_iteration = 2 // 2 = 1` and the run *rewrites* the already-written
segment file `_iter_1.parquet` — the write log of the second run names
segment index 1, which the directory already contained. -/
theorem c9_counterexample :
    get_features_loop lossyFunc [1, 2, 3] true 291 1 1 2 true none true "b" []
      = ([(0, [mkRow 1]), (1, [mkRow 3])], [(0, [mkRow 1]), (1, [mkRow 3])],
         Except.ok (LoopRet.finished [mkRow 3] (mkOutfile "b" true 291 1 1 none)))
    ∧ get_features_loop lossyFunc [1, 2, 3] true 291 1 1 2 false none true "b"
        [(0, [mkRow 1]), (1, [mkRow 3])]
      = ([(0, [mkRow 1]), (1, [mkRow 3])], [(1, [mkRow 3])],
         Except.ok (LoopRet.finished [mkRow 3] (mkOutfile "b" true 291 1 1 none)))
    ∧ (1, [mkRow 3]) ∈ ([(0, [mkRow 1]), (1, [mkRow 3])] : FS) :=
  ⟨rfl, rfl, by decide⟩

/-- C6: running `get_features_loop` to completion with the ideal fetch
function (every requested identifier comes back) and then rerunning it on
the resulting directory with the same identifier list and resume enabled
(`restart = False`) is a no-op: the rerun writes nothing, leaves the
directory unchanged and reports that the dataset is complete. -/
theorem c6_resume_noop (ids : List Nat) (C : Nat) (r1 wf : Bool) (f c q : Nat)
    (suf : Option String) (base : String) (hC : 1 ≤ C) (hne : ids ≠ [])
    (fs1 : FS) (log1 : List (Nat × List Row)) (df : List Row) (out : String)
    (h1 : get_features_loop idealFunc ids wf f c q C r1 suf true base []
        = (fs1, log1, Except.ok (LoopRet.finished df out))) :
    get_features_loop idealFunc ids wf f c q C false suf true base fs1
      = (fs1, [], Except.ok LoopRet.complete) := by
  rw [fresh_run_ideal ids C r1 wf f c q suf base hC hne] at h1
  have hfs : fs1 = (List.range' 0 (n_iterations ids.length C)).map
      (fun i => (i, (loopSlice ids C i).map mkRow)) := (congrArg Prod.fst h1).symm
  rw [hfs]
  apply resume_complete_run
  · have hpos : 0 < n_iterations ids.length C :=
      n_iterations_pos _ _ (List.length_pos.2 hne) hC
    intro hcontra
    have hlen := congrArg List.length hcontra
    simp only [List.length_map, List.length_range', List.length_nil] at hlen
    omega
  · have hex : existingIds ((List.range' 0 (n_iterations ids.length C)).map
        (fun i => (i, (loopSlice ids C i).map mkRow))) = ids := by
      rw [existingIds, List.map_map]
      have hcomp : ((fun seg : Nat × List Row => seg.2.map Row.sid) ∘
          (fun i => (i, (loopSlice ids C i).map mkRow)))
            = fun i => (ids.drop (i * C)).take C := by
        funext i
        show ((loopSlice ids C i).map mkRow).map Row.sid = (ids.drop (i * C)).take C
        rw [List.map_map, show (Row.sid ∘ mkRow) = fun a : Nat => a from rfl,
          List.map_id']
        rfl
      rw [hcomp, ← List.range_eq_range', flatten_slices]
      exact List.take_of_length_le (le_n_iterations_mul _ _ hC)
    rw [hex]
    exact all_contains_self ids

/-- Witness for C6: identifiers `[1,2,3]`, chunk size 2, completed fresh run
then resumed rerun. -/
theorem c6_resume_noop_witness :
    get_features_loop idealFunc [1, 2, 3] true 291 1 1 2 false none true "b"
        [(0, [mkRow 1, mkRow 2]), (1, [mkRow 3])]
      = ([(0, [mkRow 1, mkRow 2]), (1, [mkRow 3])], [],
         Except.ok LoopRet.complete) :=
  c6_resume_noop [1, 2, 3] 2 true true 291 1 1 none "b" (by decide) (by decide)
    [(0, [mkRow 1, mkRow 2]), (1, [mkRow 3])]
    [(0, [mkRow 1, mkRow 2]), (1, [mkRow 3])]
    [mkRow 3] (mkOutfile "b" true 291 1 1 none) rfl

/-! ## The clean fetch path (claim C8, amended) -/

lemma processResponses_good (h w : Nat) (s : List Nat) (sd : Option (List Row)) :
    processResponses (goodRemote h w s) sd
      = Except.ok (some (s.map (mkGRow h w))) := rfl

lemma extractDmdt_good (h w : Nat) (s : List Nat) (hne : s ≠ []) :
    extractDmdt (s.map (mkGRow h w)) = some [s.length, h, w, 1] := by
  rcases s with _ | ⟨a, t⟩
  · exact absurd rfl hne
  · simp only [List.map_cons, extractDmdt, mkGRow]
    rw [if_pos]
    · simp [List.length_map]
    · rw [List.all_eq_true]
      intro r hr
      rcases List.mem_map.1 hr with ⟨i, _hi, rfl⟩
      simp [mkGRow]

lemma fetchPage_good (h w : Nat) (s : List Nat) (hne : s ≠ []) (st : FetchState) :
    fetchPage (goodRemote h w) s st = Except.ok
      ⟨some (s.map (mkGRow h w)), [s.length, h, w, 1],
       st.dfColl ++ [s.map (mkGRow h w)], st.dmdtColl ++ [[s.length, h, w, 1]]⟩ := by
  simp only [fetchPage, processResponses_good, extractDmdt_good h w s hne]

/-- Against the good remote, the page loop succeeds and appends one row
block and one uniformly-shaped slab per page. -/
lemma fetchGo_good (h w : Nat) :
    ∀ (ss : List (List Nat)) (st : FetchState), (∀ s ∈ ss, s ≠ []) →
      ∃ st' : FetchState,
        fetchGo (goodRemote h w) ss st = Except.ok st'
        ∧ st'.dfColl = st.dfColl ++ ss.map (fun s => s.map (mkGRow h w))
        ∧ st'.dmdtColl = st.dmdtColl ++ ss.map (fun s => [s.length, h, w, 1]) := by
  intro ss
  induction ss with
  | nil =>
    intro st _
    exact ⟨st, rfl, by simp, by simp⟩
  | cons s ss ih =>
    intro st hne
    obtain ⟨st', h1, h2, h3⟩ := ih
      ⟨some (s.map (mkGRow h w)), [s.length, h, w, 1],
       st.dfColl ++ [s.map (mkGRow h w)], st.dmdtColl ++ [[s.length, h, w, 1]]⟩
      (fun u hu => hne u (List.mem_cons_of_mem s hu))
    refine ⟨st', ?_, ?_, ?_⟩
    · simp only [fetchGo, fetchPage_good h w s (hne s (List.mem_cons_self s ss)) st]
      exact h1
    · rw [h2]
      simp [List.append_assoc]
    · rw [h3]
      simp [List.append_assoc]

lemma vstack_uniform (ns : List Nat) (x : Nat) (t : List Nat) (hns : ns ≠ []) :
    vstack (ns.map (fun n => n :: x :: t)) = Except.ok (ns.sum :: x :: t) := by
  rcases ns with _ | ⟨n, ns⟩
  · exact absurd rfl hns
  · have hmap : (ns.map (fun n => n :: x :: t)).map atleast2d
        = ns.map (fun n => n :: x :: t) := by
      rw [List.map_map]
      exact List.map_congr_left (fun m _ => rfl)
    have hall : (ns.map (fun n => n :: x :: t)).all
        (fun u => u.drop 1 == (n :: x :: t).drop 1) = true := by
      rw [List.all_eq_true]
      intro u hu
      rcases List.mem_map.1 hu with ⟨m, _hm, rfl⟩
      simp
    have hheads : (ns.map (fun n => n :: x :: t)).map (fun u => u.headD 0) = ns := by
      rw [List.map_map,
        show ((fun u : List Nat => u.headD 0) ∘ fun n : Nat => n :: x :: t)
          = fun n : Nat => n from rfl]
      exact List.map_id' ns
    have hred : atleast2d (n :: x :: t) = n :: x :: t := rfl
    simp only [List.map_cons, vstack, hmap, hred]
    rw [if_pos hall]
    rw [hheads]
    simp

/-- Every page slice visited on a non-empty identifier list with a positive
page size is non-empty. -/
lemma pages_ne_nil (limit : Nat) (ids : List Nat) (hL : 1 ≤ limit)
    (hne : ids ≠ []) : ∀ s ∈ getFeaturesPages limit ids, s ≠ [] := by
  intro s hs
  rw [getFeaturesPages] at hs
  rcases List.mem_map.1 hs with ⟨i, hi, rfl⟩
  rw [List.mem_range] at hi
  have hN : 0 < ids.length := List.length_pos.2 hne
  have hceil : numPages ids.length limit = n_iterations ids.length limit := by
    rw [numPages, ← n_iterations_eq_ceil _ _ hL]
    have := n_iterations_pos ids.length limit hN hL
    omega
  rw [hceil] at hi
  have h4 : i * limit ≤ (n_iterations ids.length limit - 1) * limit :=
    Nat.mul_le_mul_right _ (by omega)
  have h5 := pred_n_iterations_mul_lt ids.length limit hL (by omega)
  intro hcontra
  have hlen := congrArg List.length hcontra
  rw [List.length_take, List.length_drop, List.length_nil] at hlen
  omega

lemma getFeaturesPages_ne_nil (limit : Nat) (ids : List Nat) :
    getFeaturesPages limit ids ≠ [] := by
  intro hcontra
  have hlen := congrArg List.length hcontra
  rw [getFeaturesPages, List.length_map, List.length_range, List.length_nil,
    numPages] at hlen
  omega

/-- C8 (amended): against a remote that returns every requested identifier
with a uniformly-shaped `h × w` dmdt matrix (so that the dmdt extraction
succeeds on every page), a call to `get_features` with page size ≥ 1 on a
non-empty identifier list succeeds, its table holds exactly one row per
identifier, and the dmdt array's leading dimension equals the table's row
count. -/
theorem c8_rowcount_matches_dmdt (ids : List Nat) (limit h w : Nat)
    (hL : 1 ≤ limit) (hne : ids ≠ []) :
    get_features (goodRemote h w) ids limit
      = Except.ok (ids.map (mkGRow h w), ids.length :: [h, w, 1])
    ∧ (ids.map (mkGRow h w)).length = ids.length := by
  refine ⟨?_, by simp⟩
  obtain ⟨st', h1, h2, h3⟩ := fetchGo_good h w (getFeaturesPages limit ids)
    initFetchState (pages_ne_nil limit ids hL hne)
  have hdf : st'.dfColl = (getFeaturesPages limit ids).map
      (fun s => s.map (mkGRow h w)) := by
    rw [h2]
    rfl
  have hdm : st'.dmdtColl = (getFeaturesPages limit ids).map
      (fun s => [s.length, h, w, 1]) := by
    rw [h3]
    rfl
  have hvs : vstack st'.dmdtColl = Except.ok (ids.length :: [h, w, 1]) := by
    rw [hdm]
    have hsplit : (getFeaturesPages limit ids).map (fun s => [s.length, h, w, 1])
        = ((getFeaturesPages limit ids).map List.length).map
            (fun n => n :: h :: [w, 1]) := by
      rw [List.map_map]
      exact List.map_congr_left (fun s _ => rfl)
    rw [hsplit, vstack_uniform _ _ _ (by
      intro hc
      exact getFeaturesPages_ne_nil limit ids (List.map_eq_nil_iff.1 hc))]
    have hsum : ((getFeaturesPages limit ids).map List.length).sum = ids.length := by
      rw [← List.length_flatten, getFeaturesPages_flatten _ _ hL]
    rw [hsum]
  have hflat : st'.dfColl.flatten = ids.map (mkGRow h w) := by
    rw [hdf, ← List.map_flatten, getFeaturesPages_flatten _ _ hL]
  simp only [get_features, h1, hvs, hflat]

/-- Witness for the amended C8: two identifiers, page size 1, dmdt 1×1. -/
theorem c8_rowcount_matches_dmdt_witness :
    get_features (goodRemote 1 1) [1, 2] 1
      = Except.ok ([1, 2].map (mkGRow 1 1), 2 :: [1, 1, 1])
    ∧ ([1, 2].map (mkGRow 1 1)).length = 2 :=
  c8_rowcount_matches_dmdt [1, 2] 1 1 1 (by decide) (by decide)

/-! ## Write-log and result-shape facts about the loop (claims C9, C10) -/

/-- Every entry of the iteration loop's final write log either was in the
incoming log or names one of the visited iteration indices. -/
lemma loopIters_log_mem (func : List Nat → Except PyErr (List Row × List Nat))
    (save : Bool) (ids : List Nat) (C : Nat) :
    ∀ (idxs : List Nat) (fs : FS) (log : List (Nat × List Row))
      (df : Option (List Row)),
      ∀ e ∈ (loopIters func save ids C idxs fs log df).2.1,
        e ∈ log ∨ e.1 ∈ idxs := by
  intro idxs
  induction idxs with
  | nil =>
    intro fs log df e he
    exact Or.inl he
  | cons i rest ih =>
    intro fs log df e he
    simp only [loopIters] at he
    rcases hfunc : func (loopSlice ids C i) with er | d
    · rw [hfunc] at he
      exact Or.inl he
    · rcases d with ⟨d, dm⟩
      rw [hfunc] at he
      rcases ih _ _ _ _ he with hl | hr
      · by_cases hs : save
        · rw [if_pos hs] at hl
          rcases List.mem_append.1 hl with h1 | h1
          · exact Or.inl h1
          · simp only [List.mem_singleton] at h1
            rw [h1]
            exact Or.inr (List.mem_cons_self i rest)
        · rw [if_neg hs] at hl
          exact Or.inl hl
      · exact Or.inr (List.mem_cons_of_mem i hr)

/-- After the resume check, the run's write log is exactly the iteration
loop's log (when `max_sources ≠ 0`). -/
lemma loopMain_log (func : List Nat → Except PyErr (List Row × List Nat))
    (ids : List Nat) (C : Nat) (save : Bool) (outfile : String)
    (ecnt : Nat) (fs : FS) (hC : C ≠ 0) :
    (loopMain func ids C save outfile ecnt fs).2.1
      = (loopIters func save ids C
          (List.range' (ecnt / C) (n_iterations ids.length C - ecnt / C))
          fs [] none).2.1 := by
  rw [loopMain, if_neg hC]
  rcases hrun : loopIters func save ids C
      (List.range' (ecnt / C) (n_iterations ids.length C - ecnt / C))
      fs [] none with ⟨fs2, log2, exc⟩
  rcases exc with er | odf
  · simp only [hrun]
  · rcases odf with _ | df <;> simp only [hrun]

/-- C9 (amended): in a resumed run (`restart = False`), if every existing
segment has index below `m` and the existing segments hold at least
`m * max_sources` identifiers in total (as they do when every completed
fetch returned all requested identifiers, so each prior segment holds
exactly `max_sources` of them), then every segment write of the run has
index at least `m` — no previously written segment file is rewritten. -/
theorem c9_resume_appends_only (func : List Nat → Except PyErr (List Row × List Nat))
    (fs : FS) (ids : List Nat) (C m : Nat) (save wf : Bool) (f c q : Nat)
    (suf : Option String) (base : String)
    (hC : 1 ≤ C) (hidx : ∀ p ∈ fs, p.1 < m)
    (hcnt : m * C ≤ (existingIds fs).length) :
    ((get_features_loop func ids wf f c q C false suf save base fs).2.1).all
      (fun e => decide (m ≤ e.1)) = true := by
  rw [List.all_eq_true]
  intro e he
  simp only [decide_eq_true_eq]
  rw [get_features_loop] at he
  by_cases hemp : fs.isEmpty = true
  · have hfs : fs = [] := List.isEmpty_iff.1 hemp
    subst hfs
    have hm0 : m * C = 0 := Nat.le_zero.1 (by simpa [existingIds] using hcnt)
    rcases Nat.mul_eq_zero.1 hm0 with hm | hc
    · rw [hm]
      exact Nat.zero_le _
    · omega
  · rw [if_pos (by simp [Bool.not_eq_true] at hemp ⊢; exact hemp)] at he
    by_cases hall : ids.all (fun x => (existingIds fs).contains x) = true
    · rw [if_pos hall] at he
      cases he
    · rw [if_neg hall] at he
      rw [loopMain_log func ids C save _ _ fs (by omega)] at he
      rcases loopIters_log_mem func save ids C _ fs [] none e he with h0 | hr
      · cases h0
      · rw [List.mem_range'_1] at hr
        have hstart : m ≤ (existingIds fs).length / C :=
          (Nat.le_div_iff_mul_le (by omega)).2 hcnt
        omega

/-- Witness for the amended C9: one full prior segment (2 of 2 ids), so the
resumed run only writes segment index 1 and above. -/
theorem c9_resume_appends_only_witness :
    ((get_features_loop idealFunc [1, 2, 3, 4] true 291 1 1 2 false none true "b"
        [(0, [mkRow 1, mkRow 2])]).2.1).all (fun e => decide (1 ≤ e.1)) = true :=
  c9_resume_appends_only idealFunc [(0, [mkRow 1, mkRow 2])] [1, 2, 3, 4] 2 1
    true true 291 1 1 none "b" (by decide) (by decide) (by decide)

/-- If the iteration loop ends normally with an assigned `df`, then either
it never ran (and `df` came in), or `df` is the table the fetch function
returned for the *last* visited index. -/
lemma loopIters_last_func (func : List Nat → Except PyErr (List Row × List Nat))
    (save : Bool) (ids : List Nat) (C : Nat) :
    ∀ (idxs : List Nat) (fs : FS) (log : List (Nat × List Row))
      (df0 : Option (List Row)) (fs' : FS) (log' : List (Nat × List Row))
      (df : List Row),
      loopIters func save ids C idxs fs log df0 = (fs', log', Except.ok (some df)) →
      (idxs = [] ∧ df0 = some df) ∨
        (∃ i, idxs.getLast? = some i
          ∧ Except.map Prod.fst (func (loopSlice ids C i)) = Except.ok df) := by
  intro idxs
  induction idxs with
  | nil =>
    intro fs log df0 fs' log' df h
    left
    simp only [loopIters, Prod.mk.injEq, Except.ok.injEq] at h
    exact ⟨rfl, h.2.2⟩
  | cons i rest ih =>
    intro fs log df0 fs' log' df h
    right
    simp only [loopIters] at h
    rcases hfunc : func (loopSlice ids C i) with er | d
    · rw [hfunc] at h
      simp only [Prod.mk.injEq] at h
      cases h.2.2
    · rcases d with ⟨d, dm⟩
      rw [hfunc] at h
      rcases ih _ _ _ _ _ _ h with ⟨hrest, hdf⟩ | ⟨j, hj, hfj⟩
      · subst hrest
        refine ⟨i, rfl, ?_⟩
        rw [hfunc]
        simp only [Except.map, Option.some.injEq] at hdf ⊢
        rw [hdf]
      · refine ⟨j, ?_, hfj⟩
        rcases rest with _ | ⟨r, rs⟩
        · cases hj
        · rw [List.getLast?_cons_cons]
          exact hj

lemma getLast?_range' : ∀ (n a : Nat), 0 < n →
    (List.range' a n).getLast? = some (a + n - 1) := by
  intro n
  induction n with
  | zero =>
    intro a h
    omega
  | succ n ih =>
    intro a _h
    rcases Nat.eq_zero_or_pos n with h0 | hpos
    · subst h0
      rw [List.range'_one, List.getLast?_singleton]
      simp
    · obtain ⟨n', rfl⟩ : ∃ n', n = n' + 1 := ⟨n - 1, by omega⟩
      rw [List.range'_succ, List.range'_succ, List.getLast?_cons_cons,
        ← List.range'_succ, ih (a + 1) (by omega)]
      congr 1
      omega

/-- A normal (non-`complete`) return of the post-resume part of the loop is
`finished df outfile` where `df` is the fetch result of the final chunk. -/
lemma loopMain_ok_shape (func : List Nat → Except PyErr (List Row × List Nat))
    (ids : List Nat) (C : Nat) (save : Bool) (outfile : String) (ecnt : Nat)
    (fs fs' : FS) (log : List (Nat × List Row)) (r : LoopRet)
    (h : loopMain func ids C save outfile ecnt fs = (fs', log, Except.ok r)) :
    ∃ df, r = LoopRet.finished df outfile
      ∧ Except.map Prod.fst (func (lastChunk ids C)) = Except.ok df := by
  rw [loopMain] at h
  by_cases hC : C = 0
  · rw [if_pos hC] at h
    simp only [Prod.mk.injEq] at h
    cases h.2.2
  · rw [if_neg hC] at h
    rcases hrun : loopIters func save ids C
        (List.range' (ecnt / C) (n_iterations ids.length C - ecnt / C))
        fs [] none with ⟨fs2, log2, exc⟩
    simp only [hrun] at h
    rcases exc with er | odf
    · simp only [Prod.mk.injEq] at h
      cases h.2.2
    · rcases odf with _ | df
      · simp only [Prod.mk.injEq] at h
        cases h.2.2
      · simp only [Prod.mk.injEq, Except.ok.injEq] at h
        refine ⟨df, h.2.2.symm, ?_⟩
        rcases loopIters_last_func func save ids C _ _ _ _ _ _ _ hrun with
          ⟨_hidxs, hdf⟩ | ⟨i, hi, hfi⟩
        · cases hdf
        · have hn : 0 < n_iterations ids.length C - ecnt / C := by
            by_contra h0
            have hz : n_iterations ids.length C - ecnt / C = 0 := by omega
            rw [hz] at hi
            cases hi
          rw [getLast?_range' _ _ hn] at hi
          have hieq : i = n_iterations ids.length C - 1 := by
            injection hi with h2
            omega
          rw [lastChunk, ← hieq]
          exact hfi

/-- C10: every normal return of `get_features_loop` has one of exactly two
shapes, and the bare `None` return happens precisely on the
resume-complete path: the result is `complete` (Python `None`) iff resume
is enabled, prior segments exist and every input identifier is already
present in them; any other normal return is the pair of the final chunk's
table and the output path prefix — the caller must handle both shapes. -/
theorem c10_result_shapes (func : List Nat → Except PyErr (List Row × List Nat))
    (ids : List Nat) (wf : Bool) (f c q C : Nat) (restart : Bool)
    (suf : Option String) (save : Bool) (base : String) (fs fs' : FS)
    (log : List (Nat × List Row)) (r : LoopRet)
    (hok : get_features_loop func ids wf f c q C restart suf save base fs
        = (fs', log, Except.ok r)) :
    (r = LoopRet.complete ↔ resumeComplete restart fs ids = true)
    ∧ retShape func ids C (mkOutfile base wf f c q suf) r := by
  rw [get_features_loop] at hok
  by_cases hb : (!restart && !fs.isEmpty) = true
  · rw [if_pos hb] at hok
    by_cases hall : ids.all (fun x => (existingIds fs).contains x) = true
    · rw [if_pos hall] at hok
      simp only [Prod.mk.injEq, Except.ok.injEq] at hok
      have hr : r = LoopRet.complete := hok.2.2.symm
      subst hr
      refine ⟨⟨fun _ => ?_, fun _ => rfl⟩, trivial⟩
      rw [resumeComplete, hb, hall]
      rfl
    · rw [if_neg hall] at hok
      obtain ⟨df, hr, hfn⟩ := loopMain_ok_shape func ids C save _ _ fs fs' log r hok
      subst hr
      refine ⟨?_, rfl, hfn⟩
      have hrc : resumeComplete restart fs ids = false := by
        rw [resumeComplete, hb, Bool.true_and]
        exact Bool.eq_false_iff.2 hall
      rw [hrc]
      simp
  · rw [if_neg hb] at hok
    obtain ⟨df, hr, hfn⟩ := loopMain_ok_shape func ids C save _ _ fs fs' log r hok
    subst hr
    refine ⟨?_, rfl, hfn⟩
    have hrc : resumeComplete restart fs ids = false := by
      rw [resumeComplete, Bool.eq_false_iff.2 hb, Bool.false_and]
    rw [hrc]
    simp

/-- Witness for C10: a completed fresh run returns the `finished` pair, and
the `complete`-iff condition evaluates to false on both sides. -/
theorem c10_result_shapes_witness :
    (LoopRet.finished ([1, 2].map mkRow) (mkOutfile "b" true 291 1 1 none)
        = LoopRet.complete
      ↔ resumeComplete true [] [1, 2] = true)
    ∧ retShape idealFunc [1, 2] 5 (mkOutfile "b" true 291 1 1 none)
        (LoopRet.finished ([1, 2].map mkRow) (mkOutfile "b" true 291 1 1 none)) :=
  c10_result_shapes idealFunc [1, 2] true 291 1 1 5 true none true "b" []
    [(0, [1, 2].map mkRow)] [(0, [1, 2].map mkRow)]
    (LoopRet.finished ([1, 2].map mkRow) (mkOutfile "b" true 291 1 1 none)) rfl

end Scope
